import Mathlib

/-!
Shallow embedding of the SwiftDrop-server parcel service
(`src/services/parcel.service.ts`) and the parcel controller
(`src/controllers/parcels.controller.ts`).

Conventions of the embedding:
* Mongo documents become a `Store := List Parcel`; `p.save()` becomes
  `saveParcel`, which replaces the document with the same `_id`.
* `Date` values become `Nat` timestamps; `new Date()` becomes an explicit
  `now : Nat` argument.
* Mongoose `ObjectId` values stay `String`s (the service converts strings to
  `ObjectId` and back; the conversion is injective on valid id strings, so the
  string representation is kept).
* Optional TypeScript arguments (`note?`, `updatedBy?`) become `Option String`.
  JavaScript truthiness tests on strings (`if (x)`, `x || d`), under which the
  empty string is falsy, are made explicit via `jsTruthy`, `orDefault` and
  `keepTruthy`.
* `async` functions have no concurrency visible to these claims; they are
  embedded as pure functions.
-/

namespace SwiftDrop

/-- JavaScript truthiness of an optional string value, as tested by
`if (x)`: `undefined` and the empty string are falsy. -/
def jsTruthy : Option String → Bool
  | none => false
  | some s => s ≠ ""

/-- JavaScript `x || d` on an optional string with a default:
the default is used when `x` is `undefined` or the empty string. -/
def orDefault (x : Option String) (d : String) : String :=
  match x with
  | some s => if s ≠ "" then s else d
  | none => d

/-- The `if (x) log.field = x` pattern: the field is set only when `x` is
truthy, i.e. present and non-empty. -/
def keepTruthy (x : Option String) : Option String :=
  match x with
  | some s => if s ≠ "" then some s else none
  | none => none

/-- One entry of a parcel's status log (`IStatusLog` of the Parcel model):
the recorded status, the system-set timestamp, an optional free-text note
and an optional acting-user reference. -/
structure StatusLog where
  status : String
  timestamp : Nat
  note : Option String
  updatedBy : Option String
deriving Repr, DecidableEq

/-- A parcel document (`IParcel`). Modelled from the spec: the Parcel model
file itself is not among the given sources, so the field list follows spec §3
and the fields the service reads and writes (`createdAt` is the mongoose
timestamp used by `buildParcelsQuery`). -/
structure Parcel where
  id : String
  trackingId : String
  senderId : String
  receiverId : String
  origin : String
  destination : String
  weight : Option Int
  price : Option Int
  status : String
  statusLogs : List StatusLog
  createdAt : Nat
deriving Repr, DecidableEq

/-- The Mongo collection of parcels, in insertion order. -/
abbrev Store := List Parcel

/-- `CreateParcelDTO` of the service. -/
structure CreateParcelDTO where
  senderId : String
  receiverId : String
  origin : String
  destination : String
  weight : Option Int
  price : Option Int
  note : Option String
deriving Repr, DecidableEq

/-- `createParcel(dto)`: builds the new aggregate with `status = "Created"`
and a single initial log entry whose note is `dto.note || "Parcel created"`
and whose `updatedBy` is the sender. `generateTrackingId()` and the
store-assigned `_id` are passed explicitly, `new Date()` is `now`. -/
def createParcel (dto : CreateParcelDTO) (newId trackingId : String)
    (now : Nat) : Parcel :=
  { id := newId
    trackingId := trackingId
    senderId := dto.senderId
    receiverId := dto.receiverId
    origin := dto.origin
    destination := dto.destination
    weight := dto.weight
    price := dto.price
    status := "Created"
    statusLogs := [{ status := "Created", timestamp := now,
                     note := some (orDefault dto.note "Parcel created"),
                     updatedBy := some dto.senderId }]
    createdAt := now }

/-- `Types.ObjectId.isValid(id)` of mongoose (external library): a string is
a valid ObjectId when it is 24 hexadecimal characters, or has byte length 12. -/
def isHexChar (c : Char) : Bool :=
  c.isDigit || (('a' ≤ c) && (c ≤ 'f')) || (('A' ≤ c) && (c ≤ 'F'))

def isValidObjectId (s : String) : Bool :=
  (s.length = 24 && s.toList.all isHexChar) || s.length = 12

/-- `getParcelById(id)`: returns `null` when the id string is not a valid
ObjectId, otherwise `Parcel.findById(id)` (the first — in a real store, only —
document with that `_id`, or `null`). The `populate` calls only decorate the
returned document and are dropped. -/
def getParcelById (st : Store) (id : String) : Option Parcel :=
  if isValidObjectId id then st.find? (fun p => p.id == id) else none

/-- `getParcelByTrackingId(trackingId)`: `Parcel.findOne({ trackingId })`. -/
def getParcelByTrackingId (st : Store) (trackingId : String) : Option Parcel :=
  st.find? (fun p => p.trackingId == trackingId)

/-- `p.save()`: writes the mutated document back over the stored document
with the same `_id`. -/
def saveParcel (st : Store) (p : Parcel) : Store :=
  st.map (fun q => if q.id == p.id then p else q)

/-- The `log` object built by `updateParcelStatus`: `{ status, timestamp,
note }`, with `updatedBy` added only when truthy. -/
def updateLog (status : String) (now : Nat) (note updatedBy : Option String) :
    StatusLog :=
  { status := status, timestamp := now, note := note,
    updatedBy := keepTruthy updatedBy }

/-- The parcel as mutated by `updateParcelStatus` before `save`:
`p.status = status; p.statusLogs.push(log)`. -/
def applyUpdate (p : Parcel) (status : String)
    (updatedBy note : Option String) (now : Nat) : Parcel :=
  { p with status := status,
           statusLogs := p.statusLogs ++ [updateLog status now note updatedBy] }

/-- `updateParcelStatus(parcelId, status, updatedBy?, note?)`: `null` when the
parcel is not found; otherwise sets `p.status = status` (no check of any kind
on the status string), pushes one log entry `{ status, timestamp, note }` with
`updatedBy` added only when truthy, saves, and returns the parcel. The result
pairs the returned parcel with the saved store. -/
def updateParcelStatus (st : Store) (parcelId status : String)
    (updatedBy note : Option String) (now : Nat) : Option (Parcel × Store) :=
  match getParcelById st parcelId with
  | none => none
  | some p =>
    let p' := applyUpdate p status updatedBy note now
    some (p', saveParcel st p')

/-- Outcome of `cancelParcel`: `null` (parcel not found), a thrown `Error`
with its message, or the returned parcel together with the saved store. -/
inductive CancelResult where
  | notFound
  | thrown (msg : String)
  | ok (p : Parcel) (st : Store)
deriving Repr, DecidableEq

/-- The `log` object built by `cancelParcel`: status `"Cancelled"`, note
`"Cancelled by user"`, `updatedBy` added only when truthy. -/
def cancelLog (now : Nat) (userId : Option String) : StatusLog :=
  { status := "Cancelled", timestamp := now,
    note := some "Cancelled by user", updatedBy := keepTruthy userId }

/-- The parcel as mutated by `cancelParcel` before `save`. -/
def applyCancel (p : Parcel) (userId : Option String) (now : Nat) : Parcel :=
  { p with status := "Cancelled",
           statusLogs := p.statusLogs ++ [cancelLog now userId] }

/-- `cancelParcel(parcelId, userId?)`: `null` when not found; throws
`"Cannot cancel parcel after dispatch"` when the current status is one of
`Dispatched`, `InTransit`, `Delivered`; otherwise sets `status = "Cancelled"`,
pushes one log entry with note `"Cancelled by user"` and `updatedBy` added
only when truthy, saves and returns the parcel. -/
def cancelParcel (st : Store) (parcelId : String) (userId : Option String)
    (now : Nat) : CancelResult :=
  match getParcelById st parcelId with
  | none => .notFound
  | some p =>
    if p.status == "Dispatched" || p.status == "InTransit"
        || p.status == "Delivered" then
      .thrown "Cannot cancel parcel after dispatch"
    else
      let p' := applyCancel p userId now
      .ok p' (saveParcel st p')

/-! ### Query model (`buildParcelsQuery` / `listParcels`)

The free-text filter `q` is compiled by the service via
`new RegExp(filters.q, "i")` and matched by Mongo against `origin`,
`destination` and `trackingId`. The term is used verbatim as a regular
expression pattern. We embed the regular-expression semantics for the
fragment of patterns whose characters are either `.` (which matches any
single character) or characters with no special regex meaning (which match
case-insensitively under the `"i"` flag); theorems about the free-text
filter are stated only for patterns in this fragment. -/

/-- Whether one pattern atom matches one subject character: `.` matches any
character, any other (non-special) character matches up to ASCII case. -/
def charMatches (pc c : Char) : Bool :=
  pc == '.' || pc.toLower == c.toLower

/-- Whether the pattern matches a prefix of the subject (each atom consumes
exactly one character). -/
def matchHere : List Char → List Char → Bool
  | [], _ => true
  | _ :: _, [] => false
  | pc :: ps, c :: cs => charMatches pc c && matchHere ps cs

/-- `re.test(s)` for an unanchored pattern: the pattern matches starting at
some position of the subject. -/
def regexTest (pat : List Char) : List Char → Bool
  | [] => matchHere pat []
  | c :: cs => matchHere pat (c :: cs) || regexTest pat cs

/-- Characters with a special meaning in a JavaScript regular expression.
Patterns containing one of these (other than `.`) are outside the embedded
fragment. -/
def isRegexSpecial (c : Char) : Bool :=
  c == '.' || c == '*' || c == '+' || c == '?' || c == '^' || c == '$'
    || c == '(' || c == ')' || c == '[' || c == ']' || c == '|'
    || c == '\\' || c == '/' || c == Char.ofNat 123 || c == Char.ofNat 125

/-- A free-text term inside the embedded regex fragment: only `.` and
non-special characters. -/
def inRegexFragment (s : String) : Bool :=
  s.toList.all (fun c => c == '.' || !isRegexSpecial c)

/-- The recognized filter keys of `buildParcelsQuery` (query-string values;
absent or empty values are falsy and ignored). Dates are already parsed to
timestamps. -/
structure ParcelFilters where
  status : Option String := none
  senderId : Option String := none
  receiverId : Option String := none
  trackingId : Option String := none
  q : Option String := none
  fromDate : Option Nat := none
  toDate : Option Nat := none
deriving Repr, DecidableEq

/-- The predicate denoted by the Mongo query object built by
`buildParcelsQuery(filters)`: a conjunction of the conditions added for each
truthy filter key; the `$or` clause for a free-text term tests the
case-insensitive regex against `origin`, `destination` and `trackingId`;
`createdAt` bounds (`$gte`/`$lte`) are inclusive. -/
def matchesQuery (f : ParcelFilters) (p : Parcel) : Bool :=
  (if jsTruthy f.status then p.status == f.status.getD "" else true) &&
  (if jsTruthy f.senderId then p.senderId == f.senderId.getD "" else true) &&
  (if jsTruthy f.receiverId then p.receiverId == f.receiverId.getD "" else true) &&
  (if jsTruthy f.trackingId then p.trackingId == f.trackingId.getD "" else true) &&
  (if jsTruthy f.q then
    let pat := (f.q.getD "").toList
    regexTest pat p.origin.toList || regexTest pat p.destination.toList
      || regexTest pat p.trackingId.toList
   else true) &&
  (match f.fromDate with | some d => decide (d ≤ p.createdAt) | none => true) &&
  (match f.toDate with | some d => decide (p.createdAt ≤ d) | none => true)

/-- `listParcels({filters, page, limit, sort})`: `Parcel.find(q)` sorted by
`sort`, skipping `(page-1)*limit` and taking `limit`, paired with
`Parcel.countDocuments(q)`. Sorting is a store-side reordering of the
matching documents; it is passed as an explicit reordering function. -/
def listParcels (st : Store) (f : ParcelFilters) (page limit : Nat)
    (sortFn : List Parcel → List Parcel) : List Parcel × Nat :=
  let matching := st.filter (matchesQuery f)
  (((sortFn matching).drop ((page - 1) * limit)).take limit, matching.length)

/-- Spec-side free-text predicate, following the spec's words only
("case-insensitive substring match of the free-text term against origin,
destination, or trackingId"): for comparison with the code's regex-based
`matchesQuery`. -/
def containsCI (needle hay : String) : Bool :=
  decide ((needle.toList.map Char.toLower) <:+: (hay.toList.map Char.toLower))

/-- Spec-side query predicate, identical to `matchesQuery` except that the
free-text term is matched as a case-insensitive substring, as the spec words
it. -/
def matchesQuerySpec (f : ParcelFilters) (p : Parcel) : Bool :=
  (if jsTruthy f.status then p.status == f.status.getD "" else true) &&
  (if jsTruthy f.senderId then p.senderId == f.senderId.getD "" else true) &&
  (if jsTruthy f.receiverId then p.receiverId == f.receiverId.getD "" else true) &&
  (if jsTruthy f.trackingId then p.trackingId == f.trackingId.getD "" else true) &&
  (if jsTruthy f.q then
    containsCI (f.q.getD "") p.origin || containsCI (f.q.getD "") p.destination
      || containsCI (f.q.getD "") p.trackingId
   else true) &&
  (match f.fromDate with | some d => decide (d ≤ p.createdAt) | none => true) &&
  (match f.toDate with | some d => decide (p.createdAt ≤ d) | none => true)

/-! ### Controller layer (`parcels.controller.ts`) -/

/-- The authenticated caller attached to the request by the auth middleware. -/
structure AuthUser where
  id : String
  role : String
deriving Repr, DecidableEq

/-- The request body of `POST /parcels` as the handler reads it. -/
structure CreateBody where
  receiverId : Option String := none
  origin : Option String := none
  destination : Option String := none
  weight : Option Int := none
  price : Option Int := none
  note : Option String := none
deriving Repr, DecidableEq

/-- Responses of `createParcelHandler`: 401 "Not authenticated",
400 "Missing required parcel fields", or 201 with the created parcel. -/
inductive CreateResponse where
  | unauthorized
  | validationError
  | created (p : Parcel)
deriving Repr, DecidableEq

/-- `createParcelHandler(req, res)`: rejects with 401 when `user?.id` is
falsy; rejects with 400 when `receiverId`, `origin` or `destination` is
falsy; otherwise builds the DTO with `senderId = String(user.id)` and calls
`createParcel`, inserting the new document. Returns the response and the
resulting store. -/
def createParcelHandler (st : Store) (user : Option AuthUser)
    (body : CreateBody) (newId trackingId : String) (now : Nat) :
    CreateResponse × Store :=
  match user with
  | none => (.unauthorized, st)
  | some u =>
    if u.id == "" then (.unauthorized, st)
    else if !(jsTruthy body.receiverId && jsTruthy body.origin
        && jsTruthy body.destination) then
      (.validationError, st)
    else
      let p := createParcel
        { senderId := u.id, receiverId := body.receiverId.getD "",
          origin := body.origin.getD "", destination := body.destination.getD "",
          weight := body.weight, price := body.price, note := body.note }
        newId trackingId now
      (.created p, st ++ [p])

/-! ### Operation traces

One mutating call against the store: parcel creation, a status update, or a
cancellation. A call that fails (not found, illegal cancellation, or a
duplicate-key rejection at insert) leaves the store unchanged — the service
throws or returns `null` before any `save`. -/

inductive Op where
  | create (dto : CreateParcelDTO) (newId trackingId : String) (now : Nat)
  | update (parcelId status : String) (updatedBy note : Option String) (now : Nat)
  | cancel (parcelId : String) (userId : Option String) (now : Nat)

/-- Effect of one service call on the store. `Parcel.create` inserts the new
document unless the store rejects the `_id` as a duplicate key. -/
def applyOp (st : Store) : Op → Store
  | .create dto newId trackingId now =>
    if st.any (fun q => q.id == newId) then st
    else st ++ [createParcel dto newId trackingId now]
  | .update parcelId status updatedBy note now =>
    match updateParcelStatus st parcelId status updatedBy note now with
    | none => st
    | some (_, st') => st'
  | .cancel parcelId userId now =>
    match cancelParcel st parcelId userId now with
    | .ok _ st' => st'
    | _ => st

/-- Effect of a sequence of service calls. -/
def applyOps (st : Store) : List Op → Store
  | [] => st
  | op :: ops => applyOps (applyOp st op) ops

/-- Store well-formedness: internal `_id`s are unique (the store's `_id`
index). -/
def WF (st : Store) : Prop := (st.map Parcel.id).Nodup

/-- The status/log coherence invariant: the log is non-empty and the parcel's
`status` equals the `status` of the last log entry. -/
def statusInv (p : Parcel) : Prop :=
  p.statusLogs ≠ [] ∧ (p.statusLogs.getLast?).map StatusLog.status = some p.status

/-! ### Concrete fixtures for closed instances

Ids are 12-character strings, hence valid ObjectIds (12-byte form). -/

def demoParcel : Parcel :=
  { id := "parcelid0001", trackingId := "TRK-1", senderId := "senderid0001",
    receiverId := "receiverid01", origin := "Lagos", destination := "Abuja",
    weight := none, price := none, status := "Created",
    statusLogs := [⟨"Created", 0, some "Parcel created", some "senderid0001"⟩],
    createdAt := 0 }

def demoDispatched : Parcel :=
  { demoParcel with
    id := "parcelid0002", trackingId := "TRK-2", status := "Dispatched",
    statusLogs := demoParcel.statusLogs ++
      [⟨"Dispatched", 1, none, some "senderid0001"⟩] }

def demoDelivered : Parcel :=
  { demoParcel with
    id := "parcelid0003", trackingId := "TRK-3", status := "Delivered",
    statusLogs := demoParcel.statusLogs ++
      [⟨"Delivered", 2, none, some "senderid0001"⟩] }

def demoCancelled : Parcel :=
  { demoParcel with
    id := "parcelid0004", trackingId := "TRK-4", status := "Cancelled",
    statusLogs := demoParcel.statusLogs ++
      [⟨"Cancelled", 2, some "Cancelled by user", some "senderid0001"⟩] }

def demoStore : Store := [demoParcel, demoDispatched, demoCancelled]

def demoStore3 : Store := [demoParcel, demoDispatched, demoDelivered]

def demoDTO : CreateParcelDTO :=
  { senderId := "senderid0001", receiverId := "receiverid01",
    origin := "Lagos", destination := "Abuja", weight := none, price := none,
    note := some "fragile" }

def demoBody : CreateBody :=
  { receiverId := some "receiverid01", origin := some "Lagos",
    destination := some "Abuja" }

def demoOps : List Op :=
  [.update "parcelid0001" "Dispatched" (some "senderid0001") none 3,
   .cancel "parcelid0002" (some "senderid0001") 4]

def demoDotFilter : ParcelFilters := { q := some "." }

/-! ### Basic lemmas about lookup and save -/

lemma getParcelById_valid {st : Store} {id : String} {p : Parcel}
    (h : getParcelById st id = some p) : isValidObjectId id = true := by
  by_cases hv : isValidObjectId id
  · exact hv
  · simp [getParcelById, hv] at h

lemma getParcelById_find {st : Store} {id : String} {p : Parcel}
    (h : getParcelById st id = some p) :
    st.find? (fun q => q.id == id) = some p := by
  have hv := getParcelById_valid h
  simpa [getParcelById, hv] using h

lemma getParcelById_mem {st : Store} {id : String} {p : Parcel}
    (h : getParcelById st id = some p) : p ∈ st :=
  List.mem_of_find?_eq_some (getParcelById_find h)

lemma getParcelById_id {st : Store} {id : String} {p : Parcel}
    (h : getParcelById st id = some p) : p.id = id := by
  have := List.find?_some (getParcelById_find h)
  exact beq_iff_eq.mp this

lemma saveParcel_map_id (st : Store) (p' : Parcel) :
    (saveParcel st p').map Parcel.id = st.map Parcel.id := by
  unfold saveParcel
  rw [List.map_map]
  apply List.map_congr_left
  intro q _
  by_cases h : q.id = p'.id
  · simp [Function.comp, beq_iff_eq.mpr h, h]
  · simp [Function.comp, beq_eq_false_iff_ne.mpr h]

lemma mem_saveParcel {st : Store} (p' : Parcel) {q : Parcel} (hq : q ∈ st) :
    (if q.id == p'.id then p' else q) ∈ saveParcel st p' := by
  unfold saveParcel
  exact List.mem_map_of_mem _ hq

lemma saveParcel_cons (a : Parcel) (t : Store) (p' : Parcel) :
    saveParcel (a :: t) p' =
      (if a.id == p'.id then p' else a) :: saveParcel t p' := rfl

lemma find?_saveParcel {st : Store} {p p' : Parcel} {id : String}
    (hfind : st.find? (fun q => q.id == id) = some p) (hid : p'.id = id) :
    (saveParcel st p').find? (fun q => q.id == id) = some p' := by
  induction st with
  | nil => simp at hfind
  | cons a t ih =>
    rw [saveParcel_cons]
    by_cases ha : a.id = id
    · have hfp : (a.id == p'.id) = true := beq_iff_eq.mpr (by rw [ha, hid])
      have hp' : (p'.id == id) = true := beq_iff_eq.mpr hid
      rw [if_pos hfp]
      exact List.find?_cons_of_pos _ hp'
    · have hfp : (a.id == p'.id) = false := by
        rw [hid]; exact beq_eq_false_iff_ne.mpr ha
      have hpa : (a.id == id) = false := beq_eq_false_iff_ne.mpr ha
      have hfind' : t.find? (fun q => q.id == id) = some p := by
        rw [List.find?_cons_of_neg _ (by simp [hpa])] at hfind
        exact hfind
      rw [if_neg (by simp [hfp])]
      rw [List.find?_cons_of_neg _ (by simp [hpa])]
      exact ih hfind'

lemma getParcelById_saveParcel {st : Store} {id : String} {p p' : Parcel}
    (hget : getParcelById st id = some p) (hid : p'.id = p.id) :
    getParcelById (saveParcel st p') id = some p' := by
  have hv := getParcelById_valid hget
  have hfind := getParcelById_find hget
  have hpid := getParcelById_id hget
  unfold getParcelById
  rw [hv]
  · exact find?_saveParcel hfind (by rw [hid, hpid])

/-! ### Characterizations of the two mutating service calls -/

lemma updateParcelStatus_eq_some {st : Store} {parcelId : String} {p : Parcel}
    (hget : getParcelById st parcelId = some p) (status : String)
    (updatedBy note : Option String) (now : Nat) :
    updateParcelStatus st parcelId status updatedBy note now =
      some (applyUpdate p status updatedBy note now,
        saveParcel st (applyUpdate p status updatedBy note now)) := by
  unfold updateParcelStatus
  rw [hget]

lemma cancelGuard_true {p : Parcel}
    (h : p.status = "Dispatched" ∨ p.status = "InTransit" ∨ p.status = "Delivered") :
    (p.status == "Dispatched" || p.status == "InTransit"
      || p.status == "Delivered") = true := by
  rcases h with h | h | h <;> simp [h]

lemma cancelGuard_false {p : Parcel}
    (h1 : p.status ≠ "Dispatched") (h2 : p.status ≠ "InTransit")
    (h3 : p.status ≠ "Delivered") :
    (p.status == "Dispatched" || p.status == "InTransit"
      || p.status == "Delivered") = false := by
  simp [beq_eq_false_iff_ne.mpr h1, beq_eq_false_iff_ne.mpr h2,
    beq_eq_false_iff_ne.mpr h3]

lemma updateParcelStatus_eq_none {st : Store} {parcelId : String}
    (hget : getParcelById st parcelId = none) (status : String)
    (updatedBy note : Option String) (now : Nat) :
    updateParcelStatus st parcelId status updatedBy note now = none := by
  unfold updateParcelStatus
  rw [hget]

lemma cancelParcel_eq_notFound {st : Store} {parcelId : String}
    (hget : getParcelById st parcelId = none) (userId : Option String)
    (now : Nat) : cancelParcel st parcelId userId now = .notFound := by
  unfold cancelParcel
  rw [hget]

lemma cancelParcel_eq_thrown {st : Store} {parcelId : String} {p : Parcel}
    (hget : getParcelById st parcelId = some p)
    (hg : (p.status == "Dispatched" || p.status == "InTransit"
      || p.status == "Delivered") = true) (userId : Option String) (now : Nat) :
    cancelParcel st parcelId userId now =
      .thrown "Cannot cancel parcel after dispatch" := by
  unfold cancelParcel
  rw [hget]
  simp [hg]

lemma cancelParcel_eq_ok {st : Store} {parcelId : String} {p : Parcel}
    (hget : getParcelById st parcelId = some p)
    (hg : (p.status == "Dispatched" || p.status == "InTransit"
      || p.status == "Delivered") = false) (userId : Option String) (now : Nat) :
    cancelParcel st parcelId userId now =
      .ok (applyCancel p userId now) (saveParcel st (applyCancel p userId now)) := by
  unfold cancelParcel
  rw [hget]
  simp [hg]

lemma updateParcelStatus_some_inv {st : Store} {parcelId status : String}
    {updatedBy note : Option String} {now : Nat} {p' : Parcel} {st' : Store}
    (h : updateParcelStatus st parcelId status updatedBy note now = some (p', st')) :
    ∃ p, getParcelById st parcelId = some p ∧
      p' = applyUpdate p status updatedBy note now ∧ st' = saveParcel st p' := by
  cases hget : getParcelById st parcelId with
  | none => rw [updateParcelStatus_eq_none hget] at h; cases h
  | some p =>
    rw [updateParcelStatus_eq_some hget] at h
    simp only [Option.some.injEq, Prod.mk.injEq] at h
    obtain ⟨h1, h2⟩ := h
    exact ⟨p, rfl, h1.symm, by rw [← h2, h1]⟩

lemma cancelParcel_ok_inv {st : Store} {parcelId : String}
    {userId : Option String} {now : Nat} {p' : Parcel} {st' : Store}
    (h : cancelParcel st parcelId userId now = .ok p' st') :
    ∃ p, getParcelById st parcelId = some p ∧
      (p.status == "Dispatched" || p.status == "InTransit"
        || p.status == "Delivered") = false ∧
      p' = applyCancel p userId now ∧ st' = saveParcel st p' := by
  cases hget : getParcelById st parcelId with
  | none => rw [cancelParcel_eq_notFound hget] at h; cases h
  | some p =>
    rcases Bool.eq_false_or_eq_true (p.status == "Dispatched"
        || p.status == "InTransit" || p.status == "Delivered") with hg | hg
    · rw [cancelParcel_eq_thrown hget hg userId now] at h; cases h
    · rw [cancelParcel_eq_ok hget hg userId now] at h
      simp only [CancelResult.ok.injEq] at h
      obtain ⟨h1, h2⟩ := h
      exact ⟨p, rfl, hg, h1.symm, by rw [← h2, h1]⟩

/-! ### Lemmas about the trace step function -/

lemma applyOp_update_eq {st : Store} {parcelId status : String}
    {updatedBy note : Option String} {now : Nat} {p' : Parcel} {st' : Store}
    (h : updateParcelStatus st parcelId status updatedBy note now = some (p', st')) :
    applyOp st (.update parcelId status updatedBy note now) = st' := by
  simp [applyOp, h]

lemma applyOp_update_failed {st : Store} {parcelId status : String}
    {updatedBy note : Option String} {now : Nat}
    (h : updateParcelStatus st parcelId status updatedBy note now = none) :
    applyOp st (.update parcelId status updatedBy note now) = st := by
  simp [applyOp, h]

lemma applyOp_cancel_eq {st : Store} {parcelId : String}
    {userId : Option String} {now : Nat} {p' : Parcel} {st' : Store}
    (h : cancelParcel st parcelId userId now = .ok p' st') :
    applyOp st (.cancel parcelId userId now) = st' := by
  simp [applyOp, h]

lemma applyOp_cancel_notFound {st : Store} {parcelId : String}
    {userId : Option String} {now : Nat}
    (h : cancelParcel st parcelId userId now = .notFound) :
    applyOp st (.cancel parcelId userId now) = st := by
  simp [applyOp, h]

lemma applyOp_cancel_thrown {st : Store} {parcelId : String}
    {userId : Option String} {now : Nat} {m : String}
    (h : cancelParcel st parcelId userId now = .thrown m) :
    applyOp st (.cancel parcelId userId now) = st := by
  simp [applyOp, h]

lemma WF_id_inj {st : Store} (h : WF st) {p q : Parcel} (hp : p ∈ st)
    (hq : q ∈ st) (hid : p.id = q.id) : p = q :=
  List.inj_on_of_nodup_map h hp hq hid

lemma WF_saveParcel {st : Store} (h : WF st) (p' : Parcel) :
    WF (saveParcel st p') := by
  unfold WF
  rw [saveParcel_map_id]
  exact h

lemma applyOp_WF {st : Store} (h : WF st) (op : Op) : WF (applyOp st op) := by
  cases op with
  | create dto newId trackingId now =>
    rcases Bool.eq_false_or_eq_true (st.any (fun q => q.id == newId)) with hdup | hdup
    · show WF (if st.any (fun q => q.id == newId) then st
        else st ++ [createParcel dto newId trackingId now])
      rw [if_pos (by simp [hdup])]
      exact h
    · have hfresh : newId ∉ st.map Parcel.id := by
        simp only [List.any_eq_false, beq_iff_eq] at hdup
        simp only [List.mem_map]
        rintro ⟨q, hq, hqid⟩
        exact hdup q hq hqid
      show WF (if st.any (fun q => q.id == newId) then st
        else st ++ [createParcel dto newId trackingId now])
      rw [if_neg (by simp [hdup])]
      unfold WF
      rw [List.map_append]
      refine List.Nodup.append h (List.nodup_singleton _) ?_
      intro x hx hx'
      simp only [createParcel, List.map_cons, List.map_nil, List.mem_singleton] at hx'
      rw [hx'] at hx
      exact hfresh hx
  | update parcelId status updatedBy note now =>
    cases hu : updateParcelStatus st parcelId status updatedBy note now with
    | none => rw [applyOp_update_failed hu]; exact h
    | some pr =>
      obtain ⟨p', st'⟩ := pr
      obtain ⟨p, _, _, hst'⟩ := updateParcelStatus_some_inv hu
      rw [applyOp_update_eq hu, hst']
      exact WF_saveParcel h p'
  | cancel parcelId userId now =>
    cases hc : cancelParcel st parcelId userId now with
    | notFound => rw [applyOp_cancel_notFound hc]; exact h
    | thrown m => rw [applyOp_cancel_thrown hc]; exact h
    | ok p' st' =>
      obtain ⟨p, _, _, _, hst'⟩ := cancelParcel_ok_inv hc
      rw [applyOp_cancel_eq hc, hst']
      exact WF_saveParcel h p'

lemma applyOp_logs_extend {st : Store} (hWF : WF st) (op : Op) {p : Parcel}
    (hp : p ∈ st) :
    ∃ p' ∈ applyOp st op, p'.id = p.id ∧ p.statusLogs <+: p'.statusLogs := by
  cases op with
  | create dto newId trackingId now =>
    refine ⟨p, ?_, rfl, List.prefix_rfl⟩
    show p ∈ (if st.any (fun q => q.id == newId) then st
      else st ++ [createParcel dto newId trackingId now])
    rcases Bool.eq_false_or_eq_true (st.any (fun q => q.id == newId)) with hdup | hdup
    · rw [if_pos (by simp [hdup])]; exact hp
    · rw [if_neg (by simp [hdup])]; exact List.mem_append_left _ hp
  | update parcelId status updatedBy note now =>
    cases hu : updateParcelStatus st parcelId status updatedBy note now with
    | none =>
      rw [applyOp_update_failed hu]
      exact ⟨p, hp, rfl, List.prefix_rfl⟩
    | some pr =>
      obtain ⟨p', st'⟩ := pr
      obtain ⟨q, hget, hp', hst'⟩ := updateParcelStatus_some_inv hu
      rw [applyOp_update_eq hu, hst', hp']
      by_cases hid : p.id = (applyUpdate q status updatedBy note now).id
      · have hqid : p.id = q.id := hid
        have hpq : p = q := WF_id_inj hWF hp (getParcelById_mem hget) hqid
        refine ⟨applyUpdate q status updatedBy note now, ?_, hqid.symm, ?_⟩
        · have := mem_saveParcel (applyUpdate q status updatedBy note now) hp
          rwa [if_pos (beq_iff_eq.mpr hid)] at this
        · rw [hpq]
          exact List.prefix_append _ _
      · refine ⟨p, ?_, rfl, List.prefix_rfl⟩
        have := mem_saveParcel (applyUpdate q status updatedBy note now) hp
        rwa [if_neg (by simp [beq_eq_false_iff_ne.mpr hid])] at this
  | cancel parcelId userId now =>
    cases hc : cancelParcel st parcelId userId now with
    | notFound =>
      rw [applyOp_cancel_notFound hc]
      exact ⟨p, hp, rfl, List.prefix_rfl⟩
    | thrown m =>
      rw [applyOp_cancel_thrown hc]
      exact ⟨p, hp, rfl, List.prefix_rfl⟩
    | ok p' st' =>
      obtain ⟨q, hget, _, hp', hst'⟩ := cancelParcel_ok_inv hc
      rw [applyOp_cancel_eq hc, hst', hp']
      by_cases hid : p.id = (applyCancel q userId now).id
      · have hqid : p.id = q.id := hid
        have hpq : p = q := WF_id_inj hWF hp (getParcelById_mem hget) hqid
        refine ⟨applyCancel q userId now, ?_, hqid.symm, ?_⟩
        · have := mem_saveParcel (applyCancel q userId now) hp
          rwa [if_pos (beq_iff_eq.mpr hid)] at this
        · rw [hpq]
          exact List.prefix_append _ _
      · refine ⟨p, ?_, rfl, List.prefix_rfl⟩
        have := mem_saveParcel (applyCancel q userId now) hp
        rwa [if_neg (by simp [beq_eq_false_iff_ne.mpr hid])] at this

lemma applyOps_WF {st : Store} (h : WF st) (ops : List Op) :
    WF (applyOps st ops) := by
  induction ops generalizing st with
  | nil => exact h
  | cons op ops ih => exact ih (applyOp_WF h op)

lemma applyOps_logs_extend {st : Store} (hWF : WF st) (ops : List Op)
    {p : Parcel} (hp : p ∈ st) :
    ∃ p' ∈ applyOps st ops, p'.id = p.id ∧ p.statusLogs <+: p'.statusLogs := by
  induction ops generalizing st p with
  | nil => exact ⟨p, hp, rfl, List.prefix_rfl⟩
  | cons op ops ih =>
    obtain ⟨p₁, hp₁, hid₁, hpre₁⟩ := applyOp_logs_extend hWF op hp
    obtain ⟨p₂, hp₂, hid₂, hpre₂⟩ := ih (applyOp_WF hWF op) hp₁
    exact ⟨p₂, hp₂, hid₂.trans hid₁, hpre₁.trans hpre₂⟩

/-! ### On metacharacter-free terms the regex test is substring containment -/

lemma matchHere_no_dot {pat : List Char} (h : ∀ c ∈ pat, c ≠ '.') :
    ∀ s, matchHere pat s =
      (pat.map Char.toLower).isPrefixOf (s.map Char.toLower) := by
  induction pat with
  | nil =>
    intro s
    cases s <;> simp [matchHere, List.isPrefixOf]
  | cons pc ps ih =>
    intro s
    cases s with
    | nil => simp [matchHere, List.isPrefixOf]
    | cons c cs =>
      have hd : pc ≠ '.' := h pc (List.mem_cons_self _ _)
      have ht : ∀ x ∈ ps, x ≠ '.' := fun x hx => h x (List.mem_cons_of_mem _ hx)
      simp [matchHere, charMatches, List.isPrefixOf,
        beq_eq_false_iff_ne.mpr hd, ih ht]

lemma regexTest_no_dot {pat : List Char} (h : ∀ c ∈ pat, c ≠ '.') :
    ∀ s, regexTest pat s =
      decide ((pat.map Char.toLower) <:+: (s.map Char.toLower)) := by
  intro s
  induction s with
  | nil =>
    rw [regexTest, matchHere_no_dot h]
    rw [Bool.eq_iff_iff]
    simp [List.isPrefixOf_iff_prefix]
  | cons c cs ih =>
    rw [regexTest, matchHere_no_dot h, ih, List.map_cons]
    rw [Bool.eq_iff_iff]
    simp [List.isPrefixOf_iff_prefix, List.infix_cons_iff]

lemma regexTest_eq_containsCI {q : String} (h : ∀ c ∈ q.toList, c ≠ '.')
    (s : String) : regexTest q.toList s.toList = containsCI q s := by
  rw [regexTest_no_dot h]
  rfl

lemma noSpecial_no_dot {qs : String}
    (h : ∀ c ∈ qs.toList, isRegexSpecial c = false) :
    ∀ c ∈ qs.toList, c ≠ '.' := by
  intro c hc heq
  have hs := h c hc
  rw [heq] at hs
  simp [isRegexSpecial] at hs

lemma matchesQuery_eq_spec {f : ParcelFilters} {qs : String} (hq : f.q = some qs)
    (h : ∀ c ∈ qs.toList, isRegexSpecial c = false) (p : Parcel) :
    matchesQuery f p = matchesQuerySpec f p := by
  have hnd := noSpecial_no_dot h
  unfold matchesQuery matchesQuerySpec
  rw [hq]
  by_cases hqs : qs = ""
  · subst hqs
    simp [jsTruthy]
  · have ht : jsTruthy (some qs) = true := by simp [jsTruthy, hqs]
    simp only [ht, if_true, Option.getD_some]
    simp only [regexTest_eq_containsCI hnd]

/-! ## Claim theorems -/

/-- Claim C1: for a parcel whose current status is `Dispatched`, `InTransit`
or `Delivered`, `cancel` fails with the illegal-transition error and leaves
the stored parcel — status and statusLogs — unchanged (the store is
untouched); for a parcel with any other current status, `cancel` succeeds,
sets the status to `Cancelled`, and appends exactly one log entry with note
`"Cancelled by user"` whose `updatedBy` is set exactly when an acting user
identifier (a non-empty string, the only truthy form of a supplied id) was
supplied — `keepTruthy userId`. -/
theorem cancelParcel_guard_spec (st : Store) (parcelId : String)
    (userId : Option String) (now : Nat) (p : Parcel)
    (hget : getParcelById st parcelId = some p) :
    ((p.status = "Dispatched" ∨ p.status = "InTransit" ∨ p.status = "Delivered") →
      cancelParcel st parcelId userId now =
        .thrown "Cannot cancel parcel after dispatch" ∧
      applyOp st (.cancel parcelId userId now) = st) ∧
    (p.status ≠ "Dispatched" → p.status ≠ "InTransit" → p.status ≠ "Delivered" →
      ∃ p', cancelParcel st parcelId userId now = .ok p' (saveParcel st p') ∧
        p'.status = "Cancelled" ∧
        p'.statusLogs = p.statusLogs ++
          [⟨"Cancelled", now, some "Cancelled by user", keepTruthy userId⟩]) := by
  constructor
  · intro hguard
    have ht := cancelParcel_eq_thrown hget (cancelGuard_true hguard) userId now
    exact ⟨ht, applyOp_cancel_thrown ht⟩
  · intro h1 h2 h3
    exact ⟨applyCancel p userId now,
      cancelParcel_eq_ok hget (cancelGuard_false h1 h2 h3) userId now, rfl, rfl⟩

/-- Claim C2: every parcel produced by `create`, and every parcel returned by
a successful `updateStatus` or `cancel`, has a non-empty `statusLogs` whose
last entry's status equals the parcel's `status` field. -/
theorem status_eq_last_log_status :
    (∀ dto newId trackingId now,
      statusInv (createParcel dto newId trackingId now)) ∧
    (∀ st parcelId status updatedBy note now p' st',
      updateParcelStatus st parcelId status updatedBy note now = some (p', st') →
      statusInv p') ∧
    (∀ st parcelId userId now p' st',
      cancelParcel st parcelId userId now = .ok p' st' → statusInv p') := by
  refine ⟨?_, ?_, ?_⟩
  · intro dto newId trackingId now
    exact ⟨by simp [createParcel], by simp [createParcel]⟩
  · intro st parcelId status updatedBy note now p' st' h
    obtain ⟨p, _, hp', _⟩ := updateParcelStatus_some_inv h
    rw [hp']
    exact ⟨by simp [applyUpdate],
      by simp [applyUpdate, updateLog, List.getLast?_concat]⟩
  · intro st parcelId userId now p' st' h
    obtain ⟨p, _, _, hp', _⟩ := cancelParcel_ok_inv h
    rw [hp']
    exact ⟨by simp [applyCancel],
      by simp [applyCancel, cancelLog, List.getLast?_concat]⟩

/-- Claim C3: the status log is append-only. A successful `updateStatus` or
`cancel` appends exactly one entry to the parcel it mutates; a failed call
leaves the store unchanged; and across any sequence of `create`,
`updateStatus` and `cancel` operations on a well-formed store, each stored
parcel evolves so that its old `statusLogs` stays a prefix of the new one —
no entry is removed or mutated and the length never decreases. -/
theorem statusLogs_append_only :
    (∀ st parcelId status updatedBy note now (p p' : Parcel) (st' : Store),
      getParcelById st parcelId = some p →
      updateParcelStatus st parcelId status updatedBy note now = some (p', st') →
      p'.statusLogs = p.statusLogs ++ [updateLog status now note updatedBy]) ∧
    (∀ st parcelId userId now (p p' : Parcel) (st' : Store),
      getParcelById st parcelId = some p →
      cancelParcel st parcelId userId now = .ok p' st' →
      p'.statusLogs = p.statusLogs ++ [cancelLog now userId]) ∧
    (∀ st parcelId status updatedBy note now,
      updateParcelStatus st parcelId status updatedBy note now = none →
      applyOp st (.update parcelId status updatedBy note now) = st) ∧
    (∀ st parcelId userId now,
      (cancelParcel st parcelId userId now = .notFound ∨
        ∃ m, cancelParcel st parcelId userId now = .thrown m) →
      applyOp st (.cancel parcelId userId now) = st) ∧
    (∀ st, WF st → ∀ ops, ∀ p ∈ st, ∃ p' ∈ applyOps st ops,
      p'.id = p.id ∧ p.statusLogs <+: p'.statusLogs ∧
      p.statusLogs.length ≤ p'.statusLogs.length) := by
  refine ⟨?_, ?_, ?_, ?_, ?_⟩
  · intro st parcelId status updatedBy note now p p' st' hget h
    obtain ⟨q, hget', hp', _⟩ := updateParcelStatus_some_inv h
    rw [hget] at hget'
    cases hget'
    rw [hp']
    rfl
  · intro st parcelId userId now p p' st' hget h
    obtain ⟨q, hget', _, hp', _⟩ := cancelParcel_ok_inv h
    rw [hget] at hget'
    cases hget'
    rw [hp']
    rfl
  · intro st parcelId status updatedBy note now h
    exact applyOp_update_failed h
  · intro st parcelId userId now h
    rcases h with h | ⟨m, h⟩
    · exact applyOp_cancel_notFound h
    · exact applyOp_cancel_thrown h
  · intro st hWF ops p hp
    obtain ⟨p', hp', hid, hpre⟩ := applyOps_logs_extend hWF ops hp
    exact ⟨p', hp', hid, hpre, hpre.length_le⟩

/-- Claim C4: `updateStatus` on an existing parcel sets the status to the
requested value unconditionally (no transition-graph validation — the
current status is never inspected) and appends exactly one log entry carrying
the new status, the current time, the optional note verbatim, and
`updatedBy` present exactly when an acting user identifier (non-empty, the
only truthy form) was supplied; on a missing parcel it returns the not-found
result (`null`, surfaced as 404). -/
theorem updateParcelStatus_spec (st : Store) (parcelId status : String)
    (updatedBy note : Option String) (now : Nat) :
    (getParcelById st parcelId = none →
      updateParcelStatus st parcelId status updatedBy note now = none) ∧
    (∀ p, getParcelById st parcelId = some p →
      updateParcelStatus st parcelId status updatedBy note now =
        some (applyUpdate p status updatedBy note now,
          saveParcel st (applyUpdate p status updatedBy note now)) ∧
      (applyUpdate p status updatedBy note now).status = status ∧
      (applyUpdate p status updatedBy note now).statusLogs =
        p.statusLogs ++ [⟨status, now, note, keepTruthy updatedBy⟩]) := by
  refine ⟨?_, ?_⟩
  · intro h
    exact updateParcelStatus_eq_none h status updatedBy note now
  · intro p h
    exact ⟨updateParcelStatus_eq_some h status updatedBy note now, rfl, rfl⟩

/-- Claim C5: the parcel returned by `create` has status `"Created"` and
exactly one status log entry, whose status is `"Created"`, whose `updatedBy`
is the sender's identifier, and whose note is the caller's note when a
(non-empty) note was given and the literal `"Parcel created"` otherwise
(`dto.note || "Parcel created"`). -/
theorem createParcel_initial_spec (dto : CreateParcelDTO)
    (newId trackingId : String) (now : Nat) :
    (createParcel dto newId trackingId now).status = "Created" ∧
    (createParcel dto newId trackingId now).statusLogs.length = 1 ∧
    ∃ e, (createParcel dto newId trackingId now).statusLogs = [e] ∧
      e.status = "Created" ∧ e.updatedBy = some dto.senderId ∧
      e.note = some (orDefault dto.note "Parcel created") ∧
      (dto.note = none → e.note = some "Parcel created") ∧
      (∀ s, dto.note = some s → s ≠ "" → e.note = some s) := by
  refine ⟨rfl, rfl, _, rfl, rfl, rfl, rfl, ?_, ?_⟩
  · intro h
    simp [orDefault, h]
  · intro s hs hne
    simp [orDefault, hs, hne]

/-- Claim C7 (amended): a creation request missing `receiverId`, `origin` or
`destination` fails with the validation error (400, "Missing required parcel
fields") and creates no parcel; a request without an authenticated user — the
only source of `senderId` — fails with the authentication error (401, "Not
authenticated"), not the validation error, and also creates no parcel. -/
theorem createParcelHandler_validation_spec (st : Store)
    (user : Option AuthUser) (body : CreateBody) (newId trackingId : String)
    (now : Nat) :
    (user = none →
      createParcelHandler st user body newId trackingId now =
        (.unauthorized, st)) ∧
    (∀ u, user = some u → u.id = "" →
      createParcelHandler st user body newId trackingId now =
        (.unauthorized, st)) ∧
    (∀ u, user = some u → u.id ≠ "" →
      (body.receiverId = none ∨ body.origin = none ∨ body.destination = none) →
      createParcelHandler st user body newId trackingId now =
        (.validationError, st)) := by
  refine ⟨?_, ?_, ?_⟩
  · rintro rfl
    rfl
  · rintro u rfl hid
    simp [createParcelHandler, hid]
  · rintro u rfl hid habs
    have hfields : (jsTruthy body.receiverId && jsTruthy body.origin
        && jsTruthy body.destination) = false := by
      rcases habs with h | h | h <;> simp [jsTruthy, h]
    simp [createParcelHandler, hid, hfields]

/-- Claim C8: `findById` fails with not-found (`null`, surfaced as 404) both
when the identifier string is not a valid ObjectId and when it is valid but
matches no stored parcel, and the two causes produce the same observable
result for the caller. -/
theorem getParcelById_notFound_spec (st : Store) (id : String) :
    (isValidObjectId id = false → getParcelById st id = none) ∧
    (st.find? (fun p => p.id == id) = none → getParcelById st id = none) ∧
    (∀ id₂, isValidObjectId id = false → isValidObjectId id₂ = true →
      st.find? (fun p => p.id == id₂) = none →
      getParcelById st id = getParcelById st id₂) := by
  refine ⟨?_, ?_, ?_⟩
  · intro h
    simp [getParcelById, h]
  · intro h
    by_cases hv : isValidObjectId id <;> simp [getParcelById, hv, h]
  · intro id₂ h1 h2 h3
    simp [getParcelById, h1, h2, h3]

/-- Claim C9: `cancel` on a parcel whose status is already `"Cancelled"` does
not fail: the guard rejects only `Dispatched`, `InTransit`, `Delivered`, so
it succeeds again, keeps status `"Cancelled"`, appends one more entry with
status `"Cancelled"` and note `"Cancelled by user"`, growing the log by one;
and the saved parcel is again `"Cancelled"`, so every repeated call grows
the log the same way. -/
theorem cancelParcel_cancelled_again_spec (st : Store) (parcelId : String)
    (userId : Option String) (now : Nat) (p : Parcel)
    (hget : getParcelById st parcelId = some p)
    (hc : p.status = "Cancelled") :
    ∃ p', cancelParcel st parcelId userId now = .ok p' (saveParcel st p') ∧
      p'.status = "Cancelled" ∧
      p'.statusLogs = p.statusLogs ++
        [⟨"Cancelled", now, some "Cancelled by user", keepTruthy userId⟩] ∧
      p'.statusLogs.length = p.statusLogs.length + 1 ∧
      getParcelById (applyOp st (.cancel parcelId userId now)) parcelId =
        some p' := by
  have hg : (p.status == "Dispatched" || p.status == "InTransit"
      || p.status == "Delivered") = false := by
    simp [hc]
  have hok := cancelParcel_eq_ok hget hg userId now
  refine ⟨applyCancel p userId now, hok, rfl, rfl, by simp [applyCancel], ?_⟩
  rw [applyOp_cancel_eq hok]
  exact getParcelById_saveParcel hget rfl

/-- Claim C10: `updateStatus` on an existing parcel accepts every status
string — also strings outside `{Created, Dispatched, InTransit, Delivered,
Cancelled}` — without any membership check, stores it verbatim as the
parcel's status, and records it verbatim in the appended log entry. -/
theorem updateParcelStatus_verbatim_spec (st : Store) (parcelId : String)
    (status : String) (updatedBy note : Option String) (now : Nat) (p : Parcel)
    (hget : getParcelById st parcelId = some p) :
    ∃ p' st', updateParcelStatus st parcelId status updatedBy note now =
        some (p', st') ∧
      p'.status = status ∧
      (p'.statusLogs.getLast?).map StatusLog.status = some status := by
  refine ⟨applyUpdate p status updatedBy note now, _,
    updateParcelStatus_eq_some hget status updatedBy note now, rfl, ?_⟩
  simp [applyUpdate, updateLog, List.getLast?_concat]

/-- Claim C6 (amended): every parcel returned by the query matches all given
predicates — exact match on status, senderId, receiverId, trackingId,
case-insensitive match of the free-text term interpreted verbatim as a
regular expression against origin, destination, or trackingId (which
coincides with case-insensitive substring match exactly when the term
contains no regex metacharacters), and inclusive bounds on creation time —
and the returned total is the count of all matching parcels, independent of
the page, limit and sort arguments. -/
theorem listParcels_query_spec (st : Store) (f : ParcelFilters)
    (page limit : Nat) (sortFn : List Parcel → List Parcel)
    (hsort : ∀ l, List.Perm (sortFn l) l) :
    (∀ p ∈ (listParcels st f page limit sortFn).1, matchesQuery f p = true) ∧
    ((listParcels st f page limit sortFn).2 =
      (st.filter (matchesQuery f)).length) ∧
    (∀ page' limit' (sortFn' : List Parcel → List Parcel),
      (listParcels st f page' limit' sortFn').2 =
      (listParcels st f page limit sortFn).2) ∧
    (∀ qs, f.q = some qs → (∀ c ∈ qs.toList, isRegexSpecial c = false) →
      ∀ p, matchesQuery f p = matchesQuerySpec f p) := by
  refine ⟨?_, rfl, ?_, ?_⟩
  · intro p hp
    have h1 : p ∈ ((sortFn (st.filter (matchesQuery f))).drop
        ((page - 1) * limit)).take limit := hp
    have h2 := List.take_subset _ _ h1
    have h3 := List.drop_subset _ _ h2
    have h4 := (hsort _).subset h3
    exact List.of_mem_filter h4
  · intro page' limit' sortFn'
    rfl
  · intro qs hq h p
    exact matchesQuery_eq_spec hq h p

/-- Claim C6 counterexample: with the free-text term `"."` (a regex
metacharacter), the query returns `demoParcel` even though `"."` is not a
case-insensitive substring of its origin, destination or trackingId — the
free-text filter is not substring match as the claim states it. -/
theorem listParcels_substring_refuted :
    demoParcel ∈ (listParcels [demoParcel] demoDotFilter 1 10 (fun l => l)).1 ∧
    matchesQuerySpec demoDotFilter demoParcel = false :=
  ⟨by decide, by decide⟩

/-- Claim C7 counterexample: a creation request with `receiverId`, `origin`
and `destination` all present but no authenticated user (the source of
`senderId`) is rejected with the 401 authentication failure, not with the
validation error the claim requires; no parcel is created. -/
theorem createParcelHandler_missing_sender_refuted :
    (createParcelHandler [] none demoBody "parcelid0009" "TRK-9" 0).1 =
      .unauthorized ∧
    (createParcelHandler [] none demoBody "parcelid0009" "TRK-9" 0).1 ≠
      .validationError ∧
    (createParcelHandler [] none demoBody "parcelid0009" "TRK-9" 0).2 = [] :=
  ⟨rfl, by decide, rfl⟩

/-! ## Closed witnesses -/

/-- Witness for C1 at a dispatched and a freshly created parcel. -/
theorem cancelParcel_guard_spec_witness :
    (cancelParcel demoStore "parcelid0002" (some "senderid0001") 5 =
        .thrown "Cannot cancel parcel after dispatch" ∧
      applyOp demoStore (.cancel "parcelid0002" (some "senderid0001") 5) =
        demoStore) ∧
    (∃ p', cancelParcel demoStore "parcelid0001" (some "senderid0001") 5 =
        .ok p' (saveParcel demoStore p') ∧
      p'.status = "Cancelled" ∧
      p'.statusLogs = demoParcel.statusLogs ++
        [⟨"Cancelled", 5, some "Cancelled by user",
          keepTruthy (some "senderid0001")⟩]) :=
  ⟨(cancelParcel_guard_spec demoStore "parcelid0002" (some "senderid0001") 5
      demoDispatched (by decide)).1 (by decide),
   (cancelParcel_guard_spec demoStore "parcelid0001" (some "senderid0001") 5
      demoParcel (by decide)).2 (by decide) (by decide) (by decide)⟩

/-- Witness for C2 at concrete create, update and cancel calls. -/
theorem status_eq_last_log_status_witness :
    statusInv (createParcel demoDTO "parcelid0009" "TRK-9" 7) ∧
    statusInv (applyUpdate demoParcel "Dispatched" (some "senderid0001")
      none 3) ∧
    statusInv (applyCancel demoParcel (some "senderid0001") 3) :=
  ⟨status_eq_last_log_status.1 demoDTO "parcelid0009" "TRK-9" 7,
   status_eq_last_log_status.2.1 demoStore "parcelid0001" "Dispatched"
     (some "senderid0001") none 3
     (applyUpdate demoParcel "Dispatched" (some "senderid0001") none 3)
     (saveParcel demoStore
       (applyUpdate demoParcel "Dispatched" (some "senderid0001") none 3))
     (by decide),
   status_eq_last_log_status.2.2 demoStore "parcelid0001"
     (some "senderid0001") 3
     (applyCancel demoParcel (some "senderid0001") 3)
     (saveParcel demoStore (applyCancel demoParcel (some "senderid0001") 3))
     (by decide)⟩

/-- Witness for C3: log monotonicity along a concrete trace. -/
theorem statusLogs_append_only_witness :
    ∃ p' ∈ applyOps demoStore demoOps, p'.id = demoParcel.id ∧
      demoParcel.statusLogs <+: p'.statusLogs ∧
      demoParcel.statusLogs.length ≤ p'.statusLogs.length :=
  statusLogs_append_only.2.2.2.2 demoStore (by unfold WF; decide) demoOps
    demoParcel (by decide)

/-- Witness for C4 at a concrete update call. -/
theorem updateParcelStatus_spec_witness :
    updateParcelStatus demoStore "parcelid0001" "Dispatched"
        (some "senderid0001") (some "on the way") 3 =
      some (applyUpdate demoParcel "Dispatched" (some "senderid0001")
          (some "on the way") 3,
        saveParcel demoStore (applyUpdate demoParcel "Dispatched"
          (some "senderid0001") (some "on the way") 3)) ∧
    (applyUpdate demoParcel "Dispatched" (some "senderid0001")
      (some "on the way") 3).status = "Dispatched" ∧
    (applyUpdate demoParcel "Dispatched" (some "senderid0001")
        (some "on the way") 3).statusLogs =
      demoParcel.statusLogs ++
        [⟨"Dispatched", 3, some "on the way",
          keepTruthy (some "senderid0001")⟩] :=
  (updateParcelStatus_spec demoStore "parcelid0001" "Dispatched"
    (some "senderid0001") (some "on the way") 3).2 demoParcel (by decide)

/-- Witness for C5 at a concrete creation input. -/
theorem createParcel_initial_spec_witness :
    ∃ e, (createParcel demoDTO "parcelid0009" "TRK-9" 7).statusLogs = [e] ∧
      e.status = "Created" ∧ e.updatedBy = some demoDTO.senderId ∧
      e.note = some (orDefault demoDTO.note "Parcel created") ∧
      (demoDTO.note = none → e.note = some "Parcel created") ∧
      (∀ s, demoDTO.note = some s → s ≠ "" → e.note = some s) :=
  (createParcel_initial_spec demoDTO "parcelid0009" "TRK-9" 7).2.2

/-- Witness for C6 at the spec's query scenario: three parcels with statuses
Created, Dispatched, Delivered; filtering by status "Dispatched". -/
theorem listParcels_query_spec_witness :
    ((listParcels demoStore3 { status := some "Dispatched" } 1 10
        (fun l => l)).2 =
      (demoStore3.filter (matchesQuery { status := some "Dispatched" })).length) ∧
    (demoStore3.filter (matchesQuery { status := some "Dispatched" })).length
      = 1 :=
  ⟨(listParcels_query_spec demoStore3 { status := some "Dispatched" } 1 10
      (fun l => l) (fun l => List.Perm.refl l)).2.1,
   by decide⟩

/-- Witness for C7 (amended) at a request missing `receiverId`. -/
theorem createParcelHandler_validation_spec_witness :
    createParcelHandler demoStore (some ⟨"senderid0001", "sender"⟩)
        { origin := some "Lagos", destination := some "Abuja" }
        "parcelid0009" "TRK-9" 0 =
      (.validationError, demoStore) :=
  (createParcelHandler_validation_spec demoStore
    (some ⟨"senderid0001", "sender"⟩)
    { origin := some "Lagos", destination := some "Abuja" }
    "parcelid0009" "TRK-9" 0).2.2 ⟨"senderid0001", "sender"⟩ rfl (by decide)
    (Or.inl rfl)

/-- Witness for C8 at an invalid id and at a valid but absent id. -/
theorem getParcelById_notFound_spec_witness :
    getParcelById demoStore "not-a-valid-objectid!" = none ∧
    getParcelById demoStore "parcelid9999" = none ∧
    getParcelById demoStore "not-a-valid-objectid!" =
      getParcelById demoStore "parcelid9999" :=
  ⟨(getParcelById_notFound_spec demoStore "not-a-valid-objectid!").1
      (by decide),
   (getParcelById_notFound_spec demoStore "parcelid9999").2.1 (by decide),
   (getParcelById_notFound_spec demoStore "not-a-valid-objectid!").2.2
     "parcelid9999" (by decide) (by decide) (by decide)⟩

/-- Witness for C9 at a parcel already cancelled. -/
theorem cancelParcel_cancelled_again_spec_witness :
    ∃ p', cancelParcel demoStore "parcelid0004" (some "senderid0001") 9 =
        .ok p' (saveParcel demoStore p') ∧
      p'.status = "Cancelled" ∧
      p'.statusLogs = demoCancelled.statusLogs ++
        [⟨"Cancelled", 9, some "Cancelled by user",
          keepTruthy (some "senderid0001")⟩] ∧
      p'.statusLogs.length = demoCancelled.statusLogs.length + 1 ∧
      getParcelById (applyOp demoStore
          (.cancel "parcelid0004" (some "senderid0001") 9)) "parcelid0004" =
        some p' :=
  cancelParcel_cancelled_again_spec demoStore "parcelid0004"
    (some "senderid0001") 9 demoCancelled (by decide) (by decide)

/-- Witness for C10 at a status string outside the lifecycle enumeration. -/
theorem updateParcelStatus_verbatim_spec_witness :
    ∃ p' st', updateParcelStatus demoStore "parcelid0001" "NotAStatus"
        none none 3 = some (p', st') ∧
      p'.status = "NotAStatus" ∧
      (p'.statusLogs.getLast?).map StatusLog.status = some "NotAStatus" :=
  updateParcelStatus_verbatim_spec demoStore "parcelid0001" "NotAStatus"
    none none 3 demoParcel (by decide)

end SwiftDrop
